import Mathlib

/-!
Verification of the catalog loader in `src/app.py` (TV-APP).

The loader fetches two JSON feeds (channels, streams), caches them on disk
with a TTL, joins them into two maps, and serves a filtered, sorted listing.
Python dictionaries are modelled as association lists that preserve insertion
order and update in place, exactly as CPython dicts behave; machine time is
modelled as an integer; the two remote fetch outcomes are passed in
explicitly as `Except` values; the cache artifact on disk is modelled as an
optional (payload, mtime) pair.
-/

namespace TVApp

/-- Parsed channel record, mirroring the `Channel` dataclass in app.py. -/
structure Channel where
  id : String
  name : String
  country : Option String
  categories : List String
deriving DecidableEq, Repr

/-- Parsed stream record, mirroring the `Stream` dataclass in app.py. -/
structure Stream where
  channel : String
  url : String
  title : Option String
  quality : Option String
  referrer : Option String
  user_agent : Option String
deriving DecidableEq, Repr

/-- A raw channel object from the channels feed. The upstream feed always
carries an `id` (app.py indexes `c["id"]` unconditionally); the other fields
are read with `.get`, hence optional here. -/
structure RawChannel where
  id : String
  name : Option String
  country : Option String
  categories : Option (List String)
deriving DecidableEq, Repr

/-- A raw stream object from the streams feed; every field is read with
`.get` in app.py, hence all optional here. -/
structure RawStream where
  channel : Option String
  url : Option String
  title : Option String
  quality : Option String
  referrer : Option String
  user_agent : Option String
deriving DecidableEq, Repr

/-- The cached payload: `{"channels": channels_raw, "streams": streams_raw}`
as written by `load_data` / `refresh_cache`. -/
structure Payload where
  channels : List RawChannel
  streams : List RawStream
deriving DecidableEq, Repr

/-- Lookup in an insertion-ordered dictionary (first entry with the key). -/
def dictLookup (k : String) : List (String × α) → Option α
  | [] => none
  | e :: rest => if e.1 = k then some e.2 else dictLookup k rest

/-- Key membership test for the dictionary model (`k in d` in Python). -/
def dictMem (k : String) (d : List (String × α)) : Bool :=
  (dictLookup k d).isSome

/-- Update-or-insert for the dictionary model: replace the value at the first
entry carrying the key, or append a fresh entry at the end, as a CPython dict
does.  `f` receives the old value when the key is present. -/
def dictUpd (k : String) (f : Option α → α) : List (String × α) → List (String × α)
  | [] => [(k, f none)]
  | e :: rest => if e.1 = k then (e.1, f (some e.2)) :: rest else e :: dictUpd k f rest

/-- Build one `Channel` from a raw record, mirroring app.py lines 79-84:
`name` falls back to the id when absent or empty (Python falsiness of the
`or`), `categories` falls back to the empty list. -/
def mkChannel (c : RawChannel) : Channel :=
  { id := c.id
    name := match c.name with
      | some n => if n = "" then c.id else n
      | none => c.id
    country := c.country
    categories := c.categories.getD [] }

/-- One iteration of the channel loop: `channels_by_id[c["id"]] = Channel(...)`. -/
def chanStep (d : List (String × Channel)) (c : RawChannel) : List (String × Channel) :=
  dictUpd c.id (fun _ => mkChannel c) d

/-- The channel map built by `load_data` (app.py lines 77-84). -/
def buildChannels (cs : List RawChannel) : List (String × Channel) :=
  cs.foldl chanStep []

/-- The `Stream` value built from a raw record that passed the falsiness
guard; `getD ""` is never reached on guarded records. -/
def mkStreamOf (s : RawStream) : Stream :=
  { channel := s.channel.getD ""
    url := s.url.getD ""
    title := s.title
    quality := s.quality
    referrer := s.referrer
    user_agent := s.user_agent }

/-- One iteration of the stream loop (app.py lines 87-100): skip the record
when `channel` or `url` is missing or empty (Python `not ch or not url`),
otherwise append the parsed stream to the group for its channel
(`setdefault(ch, []).append(st)`). -/
def streamStep (d : List (String × List Stream)) (s : RawStream) :
    List (String × List Stream) :=
  match s.channel, s.url with
  | some ch, some u =>
    if ch = "" ∨ u = "" then d
    else dictUpd ch (fun o => o.getD [] ++ [mkStreamOf s]) d
  | some _, none => d
  | none, _ => d

/-- The grouped stream map before orphan removal (app.py lines 86-100). -/
def buildStreamsRaw (ss : List RawStream) : List (String × List Stream) :=
  ss.foldl streamStep []

/-- The final stream map of `load_data`: groups whose key is not a known
channel id are dropped (app.py line 103). -/
def buildStreams (p : Payload) : List (String × List Stream) :=
  (buildStreamsRaw p.streams).filter (fun e => dictMem e.1 (buildChannels p.channels))

/-- The parse-and-join stage of `load_data` (app.py lines 77-105). -/
def joinPayload (p : Payload) : List (String × Channel) × List (String × List Stream) :=
  (buildChannels p.channels, buildStreams p)

/-- Error raised by `fetch_json` (a requests exception propagating). -/
inductive FetchErr where
  | httpError (msg : String)
deriving DecidableEq, Repr

/-- The file system as the loader sees it: the single cache artifact,
`none` when the file does not exist, otherwise its content and mtime. -/
structure FS where
  cache : Option (Payload × Int)
deriving DecidableEq, Repr

/-- The mtime of the cache artifact, when it exists (`os.path.getmtime`). -/
def cacheMtime (fs : FS) : Option Int :=
  fs.cache.map (fun e => e.2)

/-- `_is_cache_fresh` (app.py lines 48-52): false when the artifact does not
exist, otherwise the age `now - mtime` must be strictly below the TTL. -/
def is_cache_fresh (mt : Option Int) (now ttl : Int) : Bool :=
  match mt with
  | none => false
  | some m => decide (now - m < ttl)

/-- `load_data` (app.py lines 59-105).  When the cache is fresh the payload
is read from the artifact; otherwise both feeds are fetched (each fetch may
raise, modelled by the `Except` arguments, and the first error propagates),
the combined payload is written to the artifact, and the payload is joined.
Returns the resulting file system together with the two maps. -/
def load_data (fs : FS) (now ttl : Int)
    (fetchChannels : Except FetchErr (List RawChannel))
    (fetchStreams : Except FetchErr (List RawStream)) :
    Except FetchErr (FS × (List (String × Channel) × List (String × List Stream))) :=
  match fs.cache, is_cache_fresh (cacheMtime fs) now ttl with
  | some (p, _), true => .ok (fs, joinPayload p)
  | _, _ =>
    match fetchChannels with
    | .error e => .error e
    | .ok cs =>
      match fetchStreams with
      | .error e => .error e
      | .ok ss => .ok (⟨some (⟨cs, ss⟩, now)⟩, joinPayload ⟨cs, ss⟩)

/-- `refresh_cache` (app.py lines 107-113): fetch both feeds
unconditionally, write the combined payload on success; a fetch error
propagates and the file system is left as it was.  Returns the operation
result together with the resulting file system. -/
def refresh_cache (fs : FS) (now : Int)
    (fetchChannels : Except FetchErr (List RawChannel))
    (fetchStreams : Except FetchErr (List RawStream)) :
    Except FetchErr Unit × FS :=
  match fetchChannels with
  | .error e => (.error e, fs)
  | .ok cs =>
    match fetchStreams with
    | .error e => (.error e, fs)
    | .ok ss => (.ok (), ⟨some (⟨cs, ss⟩, now)⟩)

/-- Python `str.lower()`, character-wise, as a character list. -/
def lowerData (s : String) : List Char :=
  s.data.map Char.toLower

/-- Python list/string prefix test used to implement the substring test. -/
def isPrefixB : List Char → List Char → Bool
  | [], _ => true
  | _ :: _, [] => false
  | a :: as, b :: bs => a == b && isPrefixB as bs

/-- Python `needle in hay` on strings: contiguous substring test. -/
def isSubstrB (n : List Char) : List Char → Bool
  | [] => n.isEmpty
  | b :: bs => isPrefixB n (b :: bs) || isSubstrB n bs

/-- Code-point lexicographic order on character lists, the order Python uses
to compare strings (`list.sort(key=...)` on the lowered names). -/
def lexLe : List Char → List Char → Bool
  | [], _ => true
  | _ :: _, [] => false
  | a :: as, b :: bs =>
    if a.toNat < b.toNat then true
    else if b.toNat < a.toNat then false
    else lexLe as bs

/-- The per-channel filter of the index route (app.py lines 288-304): skip
channels without streams, then apply the country, category and text filters
exactly as the successive `continue` guards do.  `q` is the already lowered
text filter. -/
def rowFilter (sbc : List (String × List Stream)) (q : List Char)
    (country category : String) (e : String × Channel) :
    Option (Channel × List Stream) :=
  match dictLookup e.1 sbc with
  | none => none
  | some sts =>
    if country ≠ "" ∧ ¬(e.2.country = some country) then none
    else if category ≠ "" ∧ ¬(category ∈ e.2.categories) then none
    else if q ≠ [] ∧ isSubstrB q (lowerData e.2.name) = false ∧
        isSubstrB q (lowerData e.2.id) = false then none
    else some (e.2, sts)

/-- Sort key comparison of the index route: ascending by the lowered channel
name (`items.sort(key=lambda x: x["channel"].name.lower())`). -/
def nameLe (a b : Channel × List Stream) : Bool :=
  lexLe (lowerData a.1.name) (lowerData b.1.name)

/-- The filter-and-sort pipeline of the index route (app.py lines 278-307):
lower the text filter, keep the channels passing all guards paired with
their stream lists, and sort by lowered channel name.  `qRaw`, `country` and
`category` are the request parameters after `.strip()`. -/
def filterAndSort (cbi : List (String × Channel)) (sbc : List (String × List Stream))
    (qRaw country category : String) : List (Channel × List Stream) :=
  (cbi.filterMap (rowFilter sbc (lowerData qRaw) country category)).mergeSort nameLe

end TVApp

namespace TVApp

/-! ### Dictionary lemmas -/

theorem dictLookup_dictUpd_self (k : String) (f : Option α → α) (d : List (String × α)) :
    dictLookup k (dictUpd k f d) = some (f (dictLookup k d)) := by
  induction d with
  | nil => simp [dictUpd, dictLookup]
  | cons e rest ih =>
    by_cases h : e.1 = k
    · simp [dictUpd, dictLookup, h]
    · simp [dictUpd, dictLookup, h, ih]

theorem dictLookup_dictUpd_ne (k k' : String) (f : Option α → α) (d : List (String × α))
    (h : k' ≠ k) : dictLookup k' (dictUpd k f d) = dictLookup k' d := by
  have hkk : ¬ k = k' := fun hh => h hh.symm
  induction d with
  | nil => simp [dictUpd, dictLookup, hkk]
  | cons e rest ih =>
    by_cases he : e.1 = k
    · simp [dictUpd, dictLookup, he, hkk]
    · simp [dictUpd, dictLookup, he, ih]

theorem dictLookup_mem (k : String) (d : List (String × α)) (v : α)
    (h : dictLookup k d = some v) : (k, v) ∈ d := by
  induction d with
  | nil => simp [dictLookup] at h
  | cons e rest ih =>
    by_cases he : e.1 = k
    · simp [dictLookup, he] at h
      refine List.mem_cons.2 (Or.inl ?_)
      cases e
      simp_all
    · simp [dictLookup, he] at h
      exact List.mem_cons_of_mem _ (ih h)

theorem mem_dictUpd (k : String) (f : Option α → α) (d : List (String × α))
    (e : String × α) (h : e ∈ dictUpd k f d) : e ∈ d ∨ ∃ o, e.2 = f o := by
  induction d with
  | nil =>
    simp [dictUpd] at h
    exact Or.inr ⟨none, by simp [h]⟩
  | cons e0 rest ih =>
    by_cases he : e0.1 = k
    · simp only [dictUpd, if_pos he] at h
      rcases List.mem_cons.1 h with h1 | h1
      · exact Or.inr ⟨some e0.2, by simp [h1]⟩
      · exact Or.inl (List.mem_cons_of_mem _ h1)
    · simp only [dictUpd, if_neg he] at h
      rcases List.mem_cons.1 h with h1 | h1
      · exact Or.inl (List.mem_cons.2 (Or.inl h1))
      · rcases ih h1 with h2 | h2
        · exact Or.inl (List.mem_cons_of_mem _ h2)
        · exact Or.inr h2

theorem dictLookup_eq_none_iff (k : String) (d : List (String × α)) :
    dictLookup k d = none ↔ ∀ e ∈ d, e.1 ≠ k := by
  induction d with
  | nil => simp [dictLookup]
  | cons e rest ih =>
    by_cases he : e.1 = k
    · simp [dictLookup, he]
    · simp [dictLookup, he, ih]

/-! ### Claim C2: freshness -/

/-- Claim C2: the freshness check returns true iff a cache artifact exists
and its age `now - mtime` is strictly below the TTL; it is always false when
no artifact exists; and it depends only on artifact existence, mtime, `now`
and `ttl`, never on the file content. -/
theorem claim_C2_freshness (fs : FS) (now ttl : Int) :
    (is_cache_fresh (cacheMtime fs) now ttl = true ↔
      ∃ p m, fs.cache = some (p, m) ∧ now - m < ttl) ∧
    (fs.cache = none → is_cache_fresh (cacheMtime fs) now ttl = false) ∧
    (∀ fs' : FS, cacheMtime fs' = cacheMtime fs →
      is_cache_fresh (cacheMtime fs') now ttl = is_cache_fresh (cacheMtime fs) now ttl) := by
  refine ⟨?_, ?_, ?_⟩
  · cases hc : fs.cache with
    | none => simp [cacheMtime, is_cache_fresh, hc]
    | some pm =>
      cases pm with
      | mk p m =>
        simp [cacheMtime, is_cache_fresh, hc]
        constructor
        · intro hh
          exact ⟨p, m, ⟨rfl, rfl⟩, hh⟩
        · rintro ⟨p1, m1, ⟨hp, hm⟩, hh⟩
          rw [hm]
          exact hh
  · intro h
    simp [cacheMtime, is_cache_fresh, h]
  · intro fs' h
    rw [h]

/-- Witness for C2 at concrete inputs: an artifact of age 100 with TTL 1800
is fresh, and the freshness of a missing artifact is false. -/
theorem claim_C2_freshness_witness :
    is_cache_fresh (cacheMtime ⟨some (⟨[], []⟩, 0)⟩) 100 1800 = true ∧
    is_cache_fresh (cacheMtime ⟨none⟩) 100 1800 = false := by
  constructor
  · exact (claim_C2_freshness ⟨some (⟨[], []⟩, 0)⟩ 100 1800).1.mpr
      ⟨⟨[], []⟩, 0, rfl, by decide⟩
  · exact (claim_C2_freshness ⟨none⟩ 100 1800).2.1 rfl

/-! ### Claim C1: no stale-cache fallback exists in this code -/

/-- A stale artifact used in the C1 counterexample: it exists (mtime 0) but
is far older than the TTL at `now = 5000`. -/
def fsStale : FS :=
  ⟨some (⟨[⟨"bbc", some "BBC News", some "UK", some ["news"]⟩],
          [⟨some "bbc", some "http://x/1", none, none, none, none⟩]⟩, 0)⟩

/-- Claim C1 counterexample: the cache artifact exists but is stale, the
remote fetch fails, and `load_data` raises the fetch error instead of
returning the data parsed from the stale artifact.  The claimed fallback
does not exist in app.py: `load_data` calls `fetch_json` with no exception
handler. -/
theorem claim_C1_counterexample :
    (fsStale.cache.isSome = true) ∧
    (is_cache_fresh (cacheMtime fsStale) 5000 1800 = false) ∧
    (load_data fsStale 5000 1800 (.error (.httpError "down"))
        (.error (.httpError "down")) = .error (.httpError "down")) :=
  ⟨rfl, rfl, rfl⟩

/-- Claim C1 as amended: when the cache is not fresh, a failure of either
remote fetch makes `load_data` propagate that fetch error unchanged,
regardless of whether a (stale) cache artifact exists on disk; the stale
artifact is never read as a fallback and no distinct CacheUnavailable error
is raised. -/
theorem claim_C1_amended (fs : FS) (now ttl : Int) (e : FetchErr)
    (cs : List RawChannel) (fss : Except FetchErr (List RawStream))
    (hfresh : is_cache_fresh (cacheMtime fs) now ttl = false) :
    load_data fs now ttl (.error e) fss = .error e ∧
    load_data fs now ttl (.ok cs) (.error e) = .error e := by
  cases hc : fs.cache with
  | none => constructor <;> simp [load_data, hc]
  | some pm =>
    cases pm with
    | mk p m => constructor <;> simp [load_data, hc, hfresh]

/-- Witness for the amended C1 at a concrete stale cache and failing fetch. -/
theorem claim_C1_amended_witness :
    load_data fsStale 5000 1800 (.error (.httpError "x")) (.ok []) = .error (.httpError "x") ∧
    load_data fsStale 5000 1800 (.ok []) (.error (.httpError "y")) = .error (.httpError "y") :=
  ⟨(claim_C1_amended fsStale 5000 1800 (.httpError "x") [] (.ok []) (by decide)).1,
   (claim_C1_amended fsStale 5000 1800 (.httpError "y") [] (.error (.httpError "y"))
      (by decide)).2⟩

end TVApp

namespace TVApp

/-! ### Claim C4: refresh atomicity -/

/-- Claim C4: `refresh_cache` writes the snapshot only after both remote
fetches succeed; if either fetch fails, that error surfaces as the result
and the prior cache artifact is left untouched (the resulting file system is
the input file system, unchanged). -/
theorem claim_C4_refresh_atomic (fs : FS) (now : Int)
    (fc : Except FetchErr (List RawChannel)) (fss : Except FetchErr (List RawStream)) :
    (∀ cs ss, fc = .ok cs → fss = .ok ss →
      refresh_cache fs now fc fss = (.ok (), ⟨some (⟨cs, ss⟩, now)⟩)) ∧
    (∀ e, fc = .error e → refresh_cache fs now fc fss = (.error e, fs)) ∧
    (∀ cs e, fc = .ok cs → fss = .error e → refresh_cache fs now fc fss = (.error e, fs)) := by
  refine ⟨?_, ?_, ?_⟩
  · intro cs ss h1 h2
    rw [h1, h2]
    rfl
  · intro e h1
    rw [h1]
    rfl
  · intro cs e h1 h2
    rw [h1, h2]
    rfl

/-- Witness for C4 at concrete inputs: a failing streams fetch surfaces the
error and leaves the stale artifact byte-for-byte as it was; a fully
successful pair of fetches writes the combined snapshot. -/
theorem claim_C4_refresh_atomic_witness :
    refresh_cache fsStale 5000 (.ok []) (.error (.httpError "down")) =
      (.error (.httpError "down"), fsStale) ∧
    refresh_cache fsStale 5000 (.ok []) (.ok []) = (.ok (), ⟨some (⟨[], []⟩, 5000)⟩) :=
  ⟨(claim_C4_refresh_atomic fsStale 5000 (.ok []) (.error (.httpError "down"))).2.2
      [] (.httpError "down") rfl rfl,
   (claim_C4_refresh_atomic fsStale 5000 (.ok []) (.ok [])).1 [] [] rfl rfl⟩

/-! ### Claim C8: snapshot round-trip -/

/-- Claim C8: a successfully fetched payload is written to the cache
artifact and joined; a later `load_data` within the TTL window reads the
artifact back and parses it, yielding channel and stream maps identical to
the maps built directly from the original fetched payload (regardless of the
fetch outcomes supplied to the second call, which does not fetch). -/
theorem claim_C8_roundtrip (fs : FS) (now now2 ttl : Int)
    (cs : List RawChannel) (ss : List RawStream)
    (fc2 : Except FetchErr (List RawChannel)) (fss2 : Except FetchErr (List RawStream))
    (h1 : is_cache_fresh (cacheMtime fs) now ttl = false)
    (h2 : now2 - now < ttl) :
    load_data fs now ttl (.ok cs) (.ok ss) =
      .ok (⟨some (⟨cs, ss⟩, now)⟩, joinPayload ⟨cs, ss⟩) ∧
    load_data ⟨some (⟨cs, ss⟩, now)⟩ now2 ttl fc2 fss2 =
      .ok (⟨some (⟨cs, ss⟩, now)⟩, joinPayload ⟨cs, ss⟩) := by
  constructor
  · cases hc : fs.cache with
    | none => simp [load_data, hc]
    | some pm =>
      cases pm with
      | mk p m => simp [load_data, hc, h1]
  · have hfresh : is_cache_fresh (cacheMtime (⟨some (⟨cs, ss⟩, now)⟩ : FS)) now2 ttl = true := by
      simp [cacheMtime, is_cache_fresh, h2]
    simp [load_data, hfresh]

/-- Witness for C8 at a concrete payload: a cache-miss load at time 0
followed by a load at time 100 (TTL 1800) with failing fetches returns the
same maps both times. -/
theorem claim_C8_roundtrip_witness :
    load_data ⟨none⟩ 0 1800
        (.ok [⟨"bbc", some "BBC News", some "UK", some ["news"]⟩])
        (.ok [⟨some "bbc", some "http://x/1", none, none, none, none⟩]) =
      .ok (⟨some (⟨[⟨"bbc", some "BBC News", some "UK", some ["news"]⟩],
                   [⟨some "bbc", some "http://x/1", none, none, none, none⟩]⟩, 0)⟩,
           joinPayload ⟨[⟨"bbc", some "BBC News", some "UK", some ["news"]⟩],
                        [⟨some "bbc", some "http://x/1", none, none, none, none⟩]⟩) ∧
    load_data ⟨some (⟨[⟨"bbc", some "BBC News", some "UK", some ["news"]⟩],
                      [⟨some "bbc", some "http://x/1", none, none, none, none⟩]⟩, 0)⟩
        100 1800 (.error (.httpError "down")) (.error (.httpError "down")) =
      .ok (⟨some (⟨[⟨"bbc", some "BBC News", some "UK", some ["news"]⟩],
                   [⟨some "bbc", some "http://x/1", none, none, none, none⟩]⟩, 0)⟩,
           joinPayload ⟨[⟨"bbc", some "BBC News", some "UK", some ["news"]⟩],
                        [⟨some "bbc", some "http://x/1", none, none, none, none⟩]⟩) :=
  claim_C8_roundtrip ⟨none⟩ 0 100 1800
    [⟨"bbc", some "BBC News", some "UK", some ["news"]⟩]
    [⟨some "bbc", some "http://x/1", none, none, none, none⟩]
    (.error (.httpError "down")) (.error (.httpError "down"))
    (by decide) (by decide)

end TVApp

namespace TVApp

/-! ### Channel map characterization -/

theorem dictMem_dictUpd (k0 k : String) (f : Option α → α) (d : List (String × α)) :
    dictMem k (dictUpd k0 f d) = (dictMem k d || k0 == k) := by
  by_cases h : k0 = k
  · subst h
    simp [dictMem, dictLookup_dictUpd_self]
  · rw [dictMem, dictLookup_dictUpd_ne k0 k f d (fun hh => h hh.symm)]
    simp [dictMem, h]

theorem dictLookup_foldl_chanStep (cs : List RawChannel) (d : List (String × Channel))
    (k : String) :
    dictLookup k (cs.foldl chanStep d) =
      match (cs.filter (fun c => c.id == k)).getLast? with
      | some c => some (mkChannel c)
      | none => dictLookup k d := by
  induction cs generalizing d with
  | nil => simp
  | cons c cs ih =>
    rw [List.foldl_cons, ih]
    by_cases hck : c.id = k
    · rw [List.filter_cons, if_pos (by simp [hck])]
      cases hcs : cs.filter (fun c => c.id == k) with
      | nil =>
        simp [chanStep, hck, dictLookup_dictUpd_self]
      | cons x xs =>
        rw [List.getLast?_cons_cons]
        cases hgl : (x :: xs).getLast? with
        | none =>
          rw [List.getLast?_eq_none_iff] at hgl
          exact absurd hgl (by simp)
        | some y => rfl
    · rw [List.filter_cons, if_neg (by simp [hck])]
      cases hcs : cs.filter (fun c => c.id == k) with
      | nil =>
        show dictLookup k (chanStep d c) = dictLookup k d
        exact dictLookup_dictUpd_ne c.id k _ d (fun hh => hck hh.symm)
      | cons x xs =>
        cases hgl : (x :: xs).getLast? with
        | none =>
          rw [List.getLast?_eq_none_iff] at hgl
          exact absurd hgl (by simp)
        | some y => rfl

/-- The channel map looks up to the LAST raw record carrying the id. -/
theorem dictLookup_buildChannels (cs : List RawChannel) (k : String) :
    dictLookup k (buildChannels cs) =
      ((cs.filter (fun c => c.id == k)).getLast?).map mkChannel := by
  rw [buildChannels, dictLookup_foldl_chanStep]
  cases (cs.filter (fun c => c.id == k)).getLast? with
  | none => simp [dictLookup]
  | some c => simp

theorem countP_key_dictUpd (k0 k : String) (f : Option α → α) (d : List (String × α)) :
    (dictUpd k0 f d).countP (fun e => e.1 == k) =
      d.countP (fun e => e.1 == k) +
        (if k0 = k ∧ dictMem k0 d = false then 1 else 0) := by
  induction d with
  | nil =>
    by_cases h : k0 = k <;>
      simp [dictUpd, dictMem, dictLookup, List.countP_cons, h]
  | cons e rest ih =>
    by_cases he : e.1 = k0
    · have : dictMem k0 (e :: rest) = true := by
        simp [dictMem, dictLookup, he]
      simp [dictUpd, he, this, List.countP_cons]
    · have hmem : dictMem k0 (e :: rest) = dictMem k0 rest := by
        simp [dictMem, dictLookup, he]
      simp only [dictUpd, if_neg he, List.countP_cons, ih, hmem]
      omega

theorem countP_key_foldl_chanStep (cs : List RawChannel) (d : List (String × Channel))
    (k : String)
    (h : d.countP (fun e => e.1 == k) = if dictMem k d = true then 1 else 0) :
    (cs.foldl chanStep d).countP (fun e => e.1 == k) =
      if dictMem k (cs.foldl chanStep d) = true then 1 else 0 := by
  induction cs generalizing d with
  | nil => exact h
  | cons c cs ih =>
    rw [List.foldl_cons]
    apply ih
    rw [chanStep, countP_key_dictUpd, dictMem_dictUpd, h]
    by_cases h1 : c.id = k <;> by_cases h2 : dictMem k d = true <;>
      by_cases h3 : dictMem c.id d = true <;> simp_all

/-! ### Claim C7: duplicate channel ids, last record wins -/

/-- Claim C7: when the channel payload carries two or more records with the
same id, the channel map contains exactly one entry for that id, and the
entry is built from the LAST such record in payload order. -/
theorem claim_C7_duplicate_ids_last_wins (cs : List RawChannel) (k : String)
    (h : 2 ≤ (cs.filter (fun c => c.id == k)).length) :
    (buildChannels cs).countP (fun e => e.1 == k) = 1 ∧
    dictLookup k (buildChannels cs) =
      ((cs.filter (fun c => c.id == k)).getLast?).map mkChannel := by
  have hlook := dictLookup_buildChannels cs k
  have hne : cs.filter (fun c => c.id == k) ≠ [] := by
    intro hh
    rw [hh] at h
    simp at h
  have hsome : ((cs.filter (fun c => c.id == k)).getLast?).isSome = true :=
    List.getLast?_isSome.2 hne
  have hmem : dictMem k (buildChannels cs) = true := by
    rw [dictMem, hlook]
    cases hx : (cs.filter (fun c => c.id == k)).getLast? with
    | none => rw [hx] at hsome; simp at hsome
    | some c => simp
  refine ⟨?_, hlook⟩
  have := countP_key_foldl_chanStep cs [] k (by simp [dictMem, dictLookup])
  rw [buildChannels] at hmem ⊢
  rw [this, if_pos hmem]

/-- Witness for C7: two records with id "a"; the map keeps one entry, built
from the second record. -/
theorem claim_C7_duplicate_ids_last_wins_witness :
    (buildChannels [⟨"a", some "first", none, none⟩, ⟨"a", some "second", none, none⟩]).countP
        (fun e => e.1 == "a") = 1 ∧
    dictLookup "a" (buildChannels
        [⟨"a", some "first", none, none⟩, ⟨"a", some "second", none, none⟩]) =
      ((([⟨"a", some "first", none, none⟩,
          ⟨"a", some "second", none, none⟩] : List RawChannel).filter
            (fun c => c.id == "a")).getLast?).map mkChannel :=
  claim_C7_duplicate_ids_last_wins
    [⟨"a", some "first", none, none⟩, ⟨"a", some "second", none, none⟩] "a" (by decide)

end TVApp

namespace TVApp

/-! ### Stream map invariants -/

theorem mem_dictUpd_cases (k : String) (f : Option α → α) (d : List (String × α))
    (e : String × α) (h : e ∈ dictUpd k f d) :
    e ∈ d ∨ (e.1 = k ∧ (e.2 = f none ∨ ∃ v, e.2 = f (some v) ∧ (k, v) ∈ d)) := by
  induction d with
  | nil =>
    simp [dictUpd] at h
    exact Or.inr ⟨by simp [h], Or.inl (by simp [h])⟩
  | cons e0 rest ih =>
    by_cases he : e0.1 = k
    · simp only [dictUpd, if_pos he] at h
      rcases List.mem_cons.1 h with h1 | h1
      · right
        refine ⟨by simp [h1, he], Or.inr ⟨e0.2, by simp [h1], ?_⟩⟩
        rw [← he]
        exact List.mem_cons.2 (Or.inl rfl)
      · exact Or.inl (List.mem_cons_of_mem _ h1)
    · simp only [dictUpd, if_neg he] at h
      rcases List.mem_cons.1 h with h1 | h1
      · exact Or.inl (List.mem_cons.2 (Or.inl h1))
      · rcases ih h1 with h2 | ⟨h2a, h2b⟩
        · exact Or.inl (List.mem_cons_of_mem _ h2)
        · rcases h2b with hb | ⟨v, hv1, hv2⟩
          · exact Or.inr ⟨h2a, Or.inl hb⟩
          · exact Or.inr ⟨h2a, Or.inr ⟨v, hv1, List.mem_cons_of_mem _ hv2⟩⟩

/-- Every group in the raw stream map is keyed by a non-empty channel id and
holds only streams whose `channel` equals the key and whose `url` is
non-empty: the falsiness guard admits no other record. -/
theorem buildStreamsRaw_good (ss : List RawStream) (d : List (String × List Stream))
    (hd : ∀ e ∈ d, e.1 ≠ "" ∧ ∀ st ∈ e.2, st.channel = e.1 ∧ st.url ≠ "")
    (e : String × List Stream) (he : e ∈ ss.foldl streamStep d) :
    e.1 ≠ "" ∧ ∀ st ∈ e.2, st.channel = e.1 ∧ st.url ≠ "" := by
  induction ss generalizing d with
  | nil => exact hd e he
  | cons s ss ih =>
    rw [List.foldl_cons] at he
    refine ih (streamStep d s) ?_ he
    intro e0 he0
    cases hch : s.channel with
    | none =>
      rw [streamStep] at he0
      simp only [hch] at he0
      exact hd e0 he0
    | some ch =>
      cases hu : s.url with
      | none =>
        rw [streamStep] at he0
        simp only [hch, hu] at he0
        exact hd e0 he0
      | some u =>
        rw [streamStep] at he0
        simp only [hch, hu] at he0
        by_cases hz : ch = "" ∨ u = ""
        · rw [if_pos hz] at he0
          exact hd e0 he0
        · rw [if_neg hz] at he0
          push_neg at hz
          rcases mem_dictUpd_cases _ _ _ _ he0 with h1 | ⟨h1, h2⟩
          · exact hd e0 h1
          · refine ⟨by rw [h1]; exact hz.1, ?_⟩
            intro st hst
            have hnew : (mkStreamOf s).channel = e0.1 ∧ (mkStreamOf s).url ≠ "" := by
              rw [h1]
              constructor
              · simp [mkStreamOf, hch]
              · simp [mkStreamOf, hu]
                exact hz.2
            rcases h2 with hb | ⟨v, hv1, hv2⟩
            · rw [hb] at hst
              simp at hst
              rw [hst]
              exact hnew
            · rw [hv1] at hst
              rcases List.mem_append.1 hst with hst1 | hst1
              · have := (hd (ch, v) hv2).2 st hst1
                rw [h1]
                exact ⟨this.1, this.2⟩
              · simp at hst1
                rw [hst1]
                exact hnew

/-- Every group in the raw stream map is a non-empty list. -/
theorem buildStreamsRaw_nonempty (ss : List RawStream) (d : List (String × List Stream))
    (hd : ∀ e ∈ d, e.2 ≠ []) (e : String × List Stream)
    (he : e ∈ ss.foldl streamStep d) : e.2 ≠ [] := by
  induction ss generalizing d with
  | nil => exact hd e he
  | cons s ss ih =>
    rw [List.foldl_cons] at he
    refine ih (streamStep d s) ?_ he
    intro e0 he0
    cases hch : s.channel with
    | none =>
      rw [streamStep] at he0
      simp only [hch] at he0
      exact hd e0 he0
    | some ch =>
      cases hu : s.url with
      | none =>
        rw [streamStep] at he0
        simp only [hch, hu] at he0
        exact hd e0 he0
      | some u =>
        rw [streamStep] at he0
        simp only [hch, hu] at he0
        by_cases hz : ch = "" ∨ u = ""
        · rw [if_pos hz] at he0
          exact hd e0 he0
        · rw [if_neg hz] at he0
          rcases mem_dictUpd_cases _ _ _ _ he0 with h1 | ⟨h1, h2⟩
          · exact hd e0 h1
          · rcases h2 with hb | ⟨v, hv1, hv2⟩
            · rw [hb]
              simp
            · rw [hv1]
              simp

/-- Any successful `load_data` returns the join of some payload. -/
theorem load_data_ok_shape (fs : FS) (now ttl : Int)
    (fc : Except FetchErr (List RawChannel)) (fss : Except FetchErr (List RawStream))
    (fs' : FS) (cbi : List (String × Channel)) (sbc : List (String × List Stream))
    (h : load_data fs now ttl fc fss = .ok (fs', cbi, sbc)) :
    ∃ p : Payload, cbi = buildChannels p.channels ∧ sbc = buildStreams p := by
  cases hc : fs.cache with
  | some pm =>
    cases pm with
    | mk p m =>
      by_cases hf : is_cache_fresh (cacheMtime fs) now ttl = true
      · simp [load_data, hc, hf, joinPayload] at h
        obtain ⟨h1, h2, h3⟩ := h
        exact ⟨p, h2.symm, h3.symm⟩
      · simp only [Bool.not_eq_true] at hf
        cases fc with
        | error e => simp [load_data, hc, hf] at h
        | ok cs =>
          cases fss with
          | error e => simp [load_data, hc, hf] at h
          | ok ss =>
            simp [load_data, hc, hf, joinPayload] at h
            obtain ⟨h1, h2, h3⟩ := h
            exact ⟨⟨cs, ss⟩, h2.symm, h3.symm⟩
  | none =>
    cases fc with
    | error e => simp [load_data, hc] at h
    | ok cs =>
      cases fss with
      | error e => simp [load_data, hc] at h
      | ok ss =>
        simp [load_data, hc, joinPayload] at h
        obtain ⟨h1, h2, h3⟩ := h
        exact ⟨⟨cs, ss⟩, h2.symm, h3.symm⟩

end TVApp

namespace TVApp

/-! ### Claim C3: cross-reference consistency -/

/-- Claim C3: whatever payload `load_data` ends up parsing (cached or
freshly fetched), every key of the returned streams map is also a key of
the returned channels map. -/
theorem claim_C3_cross_reference (fs : FS) (now ttl : Int)
    (fc : Except FetchErr (List RawChannel)) (fss : Except FetchErr (List RawStream))
    (fs' : FS) (cbi : List (String × Channel)) (sbc : List (String × List Stream))
    (h : load_data fs now ttl fc fss = .ok (fs', cbi, sbc))
    (k : String) (hk : dictMem k sbc = true) :
    dictMem k cbi = true := by
  obtain ⟨p, hcbi, hsbc⟩ := load_data_ok_shape fs now ttl fc fss fs' cbi sbc h
  subst hcbi
  subst hsbc
  rw [dictMem] at hk
  cases hl : dictLookup k (buildStreams p) with
  | none => rw [hl] at hk; simp at hk
  | some sts =>
    have hmem := dictLookup_mem _ _ _ hl
    have hp := (List.mem_filter.1 hmem).2
    simpa using hp

/-- Witness for C3: a concrete cache-miss load; the key "bbc" of the stream
map is a key of the channel map. -/
theorem claim_C3_cross_reference_witness :
    dictMem "bbc" (buildChannels [⟨"bbc", some "BBC News", some "UK", some ["news"]⟩]) = true :=
  claim_C3_cross_reference ⟨none⟩ 0 1800
    (.ok [⟨"bbc", some "BBC News", some "UK", some ["news"]⟩])
    (.ok [⟨some "bbc", some "http://x/1", none, none, none, none⟩])
    ⟨some (⟨[⟨"bbc", some "BBC News", some "UK", some ["news"]⟩],
             [⟨some "bbc", some "http://x/1", none, none, none, none⟩]⟩, 0)⟩
    (buildChannels [⟨"bbc", some "BBC News", some "UK", some ["news"]⟩])
    (buildStreams ⟨[⟨"bbc", some "BBC News", some "UK", some ["news"]⟩],
                   [⟨some "bbc", some "http://x/1", none, none, none, none⟩]⟩)
    rfl "bbc" (by decide)

/-! ### Claim C10: stream lists are never empty -/

/-- Claim C10: every value of the streams map returned by `load_data` is a
non-empty list: a group is created only when a stream is appended to it. -/
theorem claim_C10_values_nonempty (fs : FS) (now ttl : Int)
    (fc : Except FetchErr (List RawChannel)) (fss : Except FetchErr (List RawStream))
    (fs' : FS) (cbi : List (String × Channel)) (sbc : List (String × List Stream))
    (h : load_data fs now ttl fc fss = .ok (fs', cbi, sbc))
    (k : String) (sts : List Stream) (hl : dictLookup k sbc = some sts) :
    sts ≠ [] := by
  obtain ⟨p, hcbi, hsbc⟩ := load_data_ok_shape fs now ttl fc fss fs' cbi sbc h
  subst hsbc
  have hmem := dictLookup_mem _ _ _ hl
  have hraw : (k, sts) ∈ buildStreamsRaw p.streams := (List.mem_filter.1 hmem).1
  have := buildStreamsRaw_nonempty p.streams [] (by simp) (k, sts) hraw
  simpa using this

/-- Witness for C10 at the concrete cache-miss load of the C3 scenario. -/
theorem claim_C10_values_nonempty_witness :
    ([⟨"bbc", "http://x/1", none, none, none, none⟩] : List Stream) ≠ [] :=
  claim_C10_values_nonempty ⟨none⟩ 0 1800
    (.ok [⟨"bbc", some "BBC News", some "UK", some ["news"]⟩])
    (.ok [⟨some "bbc", some "http://x/1", none, none, none, none⟩])
    ⟨some (⟨[⟨"bbc", some "BBC News", some "UK", some ["news"]⟩],
             [⟨some "bbc", some "http://x/1", none, none, none, none⟩]⟩, 0)⟩
    (buildChannels [⟨"bbc", some "BBC News", some "UK", some ["news"]⟩])
    (buildStreams ⟨[⟨"bbc", some "BBC News", some "UK", some ["news"]⟩],
                   [⟨some "bbc", some "http://x/1", none, none, none, none⟩]⟩)
    rfl "bbc" [⟨"bbc", "http://x/1", none, none, none, none⟩] (by decide)

/-! ### Claim C5: malformed and orphan streams are dropped -/

/-- Claim C5: a stream record whose `channel` or `url` field is missing, or
whose `channel` value matches no channel id of the payload, contributes no
stream to the final streams map: the stream value it would parse to appears
in no group. -/
theorem claim_C5_malformed_orphan_dropped (p : Payload) (s : RawStream)
    (_hs : s ∈ p.streams)
    (hbad : s.channel = none ∨ s.url = none ∨ ∀ c ∈ p.channels, some c.id ≠ s.channel)
    (k : String) (sts : List Stream)
    (hl : dictLookup k (buildStreams p) = some sts) :
    mkStreamOf s ∉ sts := by
  intro hin
  have hmem := dictLookup_mem _ _ _ hl
  have hfil := List.mem_filter.1 hmem
  have hgood := buildStreamsRaw_good p.streams [] (by simp) (k, sts) hfil.1
  have hst := hgood.2 (mkStreamOf s) hin
  rcases hbad with hb | hb | hb
  · have : (mkStreamOf s).channel = "" := by simp [mkStreamOf, hb]
    rw [hst.1] at this
    exact hgood.1 this
  · have : (mkStreamOf s).url = "" := by simp [mkStreamOf, hb]
    exact hst.2 this
  · cases hch : s.channel with
    | none =>
      have : (mkStreamOf s).channel = "" := by simp [mkStreamOf, hch]
      rw [hst.1] at this
      exact hgood.1 this
    | some ch =>
      have hck : ch = k := by
        have := hst.1
        simpa [mkStreamOf, hch] using this
      have hmemk := hfil.2
      simp only [dictMem] at hmemk
      rw [dictLookup_buildChannels] at hmemk
      have hflt : p.channels.filter (fun c => c.id == k) = [] := by
        rw [List.filter_eq_nil_iff]
        intro c hc
        have := hb c hc
        rw [hch, hck] at this
        simpa using this
      rw [hflt] at hmemk
      simp at hmemk

/-- Witness for C5: the "ghost" stream of the spec scenario references an
unknown channel id and appears in no group of the stream map. -/
theorem claim_C5_malformed_orphan_dropped_witness :
    mkStreamOf ⟨some "ghost", some "http://x/2", none, none, none, none⟩ ∉
      ([⟨"bbc", "http://x/1", none, none, none, none⟩] : List Stream) :=
  claim_C5_malformed_orphan_dropped
    ⟨[⟨"bbc", some "BBC News", some "UK", some ["news"]⟩],
     [⟨some "bbc", some "http://x/1", none, none, none, none⟩,
      ⟨some "ghost", some "http://x/2", none, none, none, none⟩]⟩
    ⟨some "ghost", some "http://x/2", none, none, none, none⟩
    (by simp)
    (Or.inr (Or.inr (by decide)))
    "bbc" [⟨"bbc", "http://x/1", none, none, none, none⟩] (by decide)

/-! ### Claim C9: empty-string channel or url is falsy, like a missing field -/

/-- Claim C9: a stream record whose `channel` or `url` is present but equal
to the empty string is dropped by the falsiness guard exactly as if the
record were absent, and in particular exactly as any record with the field
missing: the resulting maps are unchanged. -/
theorem claim_C9_empty_string_is_falsy (cs : List RawChannel)
    (pre post : List RawStream) (s : RawStream)
    (h : s.channel = some "" ∨ s.url = some "") :
    joinPayload ⟨cs, pre ++ s :: post⟩ = joinPayload ⟨cs, pre ++ post⟩ ∧
    (∀ s2 : RawStream, s2.channel = none ∨ s2.url = none →
      joinPayload ⟨cs, pre ++ s :: post⟩ = joinPayload ⟨cs, pre ++ s2 :: post⟩) := by
  have hstep : ∀ t : RawStream,
      (t.channel = some "" ∨ t.url = some "" ∨ t.channel = none ∨ t.url = none) →
      ∀ d, streamStep d t = d := by
    intro t ht d
    rcases ht with ht | ht | ht | ht
    · cases hu : t.url with
      | none => simp [streamStep, ht, hu]
      | some u => simp [streamStep, ht, hu]
    · cases hc : t.channel with
      | none => simp [streamStep, ht, hc]
      | some c0 => simp [streamStep, ht, hc]
    · simp [streamStep, ht]
    · cases hc : t.channel with
      | none => simp [streamStep, ht, hc]
      | some c0 => simp [streamStep, ht, hc]
  have hdrop : ∀ t : RawStream,
      (t.channel = some "" ∨ t.url = some "" ∨ t.channel = none ∨ t.url = none) →
      buildStreamsRaw (pre ++ t :: post) = buildStreamsRaw (pre ++ post) := by
    intro t ht
    rw [buildStreamsRaw, buildStreamsRaw, List.foldl_append, List.foldl_append,
      List.foldl_cons, hstep t ht]
  constructor
  · have h1 := hdrop s (by tauto)
    simp [joinPayload, buildStreams, h1]
  · intro s2 h2
    have h1 := hdrop s (by tauto)
    have h3 := hdrop s2 (by tauto)
    simp [joinPayload, buildStreams, h1, h3]

/-- Witness for C9: a record with url present but empty is dropped; the
join equals the join without it and the join with a channel-missing record
in its place. -/
theorem claim_C9_empty_string_is_falsy_witness :
    joinPayload ⟨[⟨"bbc", some "BBC News", some "UK", some ["news"]⟩],
                 [⟨some "bbc", some "", none, none, none, none⟩]⟩ =
      joinPayload ⟨[⟨"bbc", some "BBC News", some "UK", some ["news"]⟩], []⟩ ∧
    (∀ s2 : RawStream, s2.channel = none ∨ s2.url = none →
      joinPayload ⟨[⟨"bbc", some "BBC News", some "UK", some ["news"]⟩],
                   [⟨some "bbc", some "", none, none, none, none⟩]⟩ =
        joinPayload ⟨[⟨"bbc", some "BBC News", some "UK", some ["news"]⟩], [s2]⟩) :=
  claim_C9_empty_string_is_falsy
    [⟨"bbc", some "BBC News", some "UK", some ["news"]⟩] [] []
    ⟨some "bbc", some "", none, none, none, none⟩ (Or.inr rfl)

end TVApp

namespace TVApp

/-! ### Order and substring lemmas for the index route -/

theorem lexLe_total : ∀ a b : List Char, (lexLe a b || lexLe b a) = true := by
  intro a
  induction a with
  | nil => intro b; simp [lexLe]
  | cons x xs ih =>
    intro b
    cases b with
    | nil => simp [lexLe]
    | cons y ys =>
      simp only [lexLe]
      by_cases hxy : x.toNat < y.toNat
      · simp [hxy]
      · by_cases hyx : y.toNat < x.toNat
        · simp [hxy, hyx]
        · simp [hxy, hyx, ih ys]

theorem lexLe_trans : ∀ a b c : List Char,
    lexLe a b = true → lexLe b c = true → lexLe a c = true := by
  intro a
  induction a with
  | nil => intro b c h1 h2; simp [lexLe]
  | cons x xs ih =>
    intro b c h1 h2
    cases b with
    | nil => simp [lexLe] at h1
    | cons y ys =>
      cases c with
      | nil => simp [lexLe] at h2
      | cons z zs =>
        simp only [lexLe] at h1 h2 ⊢
        by_cases hxy : x.toNat < y.toNat <;>
          by_cases hyx : y.toNat < x.toNat <;>
          by_cases hyz : y.toNat < z.toNat <;>
          by_cases hzy : z.toNat < y.toNat <;>
          by_cases hxz : x.toNat < z.toNat <;>
          by_cases hzx : z.toNat < x.toNat <;>
          simp_all <;>
          first
          | omega
          | exact ih ys zs h1 h2
          | exact Or.inr (ih ys zs h1 h2)

theorem nameLe_trans (a b c : Channel × List Stream)
    (h1 : nameLe a b = true) (h2 : nameLe b c = true) : nameLe a c = true :=
  lexLe_trans _ _ _ h1 h2

theorem nameLe_total (a b : Channel × List Stream) : (nameLe a b || nameLe b a) = true :=
  lexLe_total _ _

theorem isPrefixB_iff : ∀ n h : List Char, isPrefixB n h = true ↔ n <+: h := by
  intro n
  induction n with
  | nil => intro h; simp [isPrefixB, List.nil_prefix]
  | cons a as ih =>
    intro h
    cases h with
    | nil => simp [isPrefixB, List.prefix_nil]
    | cons b bs => simp [isPrefixB, List.cons_prefix_cons, ih bs]

theorem isSubstrB_iff (n : List Char) : ∀ h : List Char, isSubstrB n h = true ↔ n <:+: h := by
  intro h
  induction h with
  | nil =>
    simp [isSubstrB, List.infix_nil, List.isEmpty_iff]
  | cons b bs ih =>
    simp [isSubstrB, List.infix_cons_iff, isPrefixB_iff, ih]

theorem lowerData_eq_nil_iff (s : String) : lowerData s = [] ↔ s = "" := by
  rw [String.ext_iff]
  simp [lowerData]

end TVApp

namespace TVApp

/-! ### Claim C6: the index route filter-and-sort pipeline -/

theorem rowFilter_eq_some (sbc : List (String × List Stream)) (q : List Char)
    (country category : String) (chId : String) (ch ch' : Channel)
    (sts : List Stream) :
    rowFilter sbc q country category (chId, ch) = some (ch', sts) ↔
      ch' = ch ∧ dictLookup chId sbc = some sts ∧
      (country ≠ "" → ch.country = some country) ∧
      (category ≠ "" → category ∈ ch.categories) ∧
      (q ≠ [] →
        (isSubstrB q (lowerData ch.name) = true ∨ isSubstrB q (lowerData ch.id) = true)) := by
  rw [rowFilter]
  cases hl : dictLookup chId sbc with
  | none => simp [hl]
  | some sts0 =>
    simp only [hl]
    split_ifs with h1 h2 h3
    · simp only [false_iff, reduceCtorEq]
      rintro ⟨hch, hsts, hcountry, hcat, hq⟩
      exact h1.2 (hcountry h1.1)
    · simp only [false_iff, reduceCtorEq]
      rintro ⟨hch, hsts, hcountry, hcat, hq⟩
      exact h2.2 (hcat h2.1)
    · simp only [false_iff, reduceCtorEq]
      rintro ⟨hch, hsts, hcountry, hcat, hq⟩
      rcases hq h3.1 with hx | hx
      · rw [hx] at h3
        exact absurd h3.2.1 (by simp)
      · rw [hx] at h3
        exact absurd h3.2.2 (by simp)
    · constructor
      · intro hh
        have hpair := Option.some.inj hh
        have hch : ch = ch' := congrArg Prod.fst hpair
        have hsts : sts0 = sts := congrArg Prod.snd hpair
        refine ⟨hch.symm, by rw [hsts], ?_, ?_, ?_⟩
        · intro hc
          by_contra hcc
          exact h1 ⟨hc, hcc⟩
        · intro hc
          by_contra hcc
          exact h2 ⟨hc, hcc⟩
        · intro hc
          cases hname : isSubstrB q (lowerData ch.name) with
          | true => exact Or.inl rfl
          | false =>
            cases hid : isSubstrB q (lowerData ch.id) with
            | true => exact Or.inr rfl
            | false => exact absurd ⟨hc, hname, hid⟩ h3
      · rintro ⟨hch, hsts, hcountry, hcat, hq⟩
        rw [hch, Option.some.inj hsts]

end TVApp

namespace TVApp

/-- Claim C6: the index route returns exactly the (Channel, [Stream]) pairs
such that the channel owns a stream group, the country filter (when set)
exact-matches the channel country, the category filter (when set) is a
member of the channel categories, and the text filter (when set) is a
case-insensitive contiguous substring of the channel name or id; and the
returned sequence is sorted ascending by the lowered channel name. -/
theorem claim_C6_filter_and_sort (cbi : List (String × Channel))
    (sbc : List (String × List Stream)) (qRaw country category : String) :
    (∀ ch sts, (ch, sts) ∈ filterAndSort cbi sbc qRaw country category ↔
      ((∃ chId, (chId, ch) ∈ cbi ∧ dictLookup chId sbc = some sts) ∧
       (country ≠ "" → ch.country = some country) ∧
       (category ≠ "" → category ∈ ch.categories) ∧
       (qRaw ≠ "" →
         (lowerData qRaw <:+: lowerData ch.name ∨ lowerData qRaw <:+: lowerData ch.id)))) ∧
    List.Pairwise (fun a b => nameLe a b = true)
      (filterAndSort cbi sbc qRaw country category) := by
  constructor
  · intro ch sts
    rw [filterAndSort, List.mem_mergeSort, List.mem_filterMap]
    constructor
    · rintro ⟨e, hmem, hrow⟩
      obtain ⟨chId, ch0⟩ := e
      rw [rowFilter_eq_some] at hrow
      obtain ⟨hch, hsts, hcountry, hcat, hq⟩ := hrow
      subst hch
      refine ⟨⟨chId, hmem, hsts⟩, hcountry, hcat, ?_⟩
      intro hraw
      have hqne : lowerData qRaw ≠ [] := by
        rw [Ne, lowerData_eq_nil_iff]
        exact hraw
      rcases hq hqne with hx | hx
      · exact Or.inl ((isSubstrB_iff _ _).1 hx)
      · exact Or.inr ((isSubstrB_iff _ _).1 hx)
    · rintro ⟨⟨chId, hmem, hsts⟩, hcountry, hcat, hq⟩
      refine ⟨(chId, ch), hmem, ?_⟩
      rw [rowFilter_eq_some]
      refine ⟨rfl, hsts, hcountry, hcat, ?_⟩
      intro hqne
      have hraw : qRaw ≠ "" := by
        intro hh
        rw [Ne, lowerData_eq_nil_iff] at hqne
        exact hqne hh
      rcases hq hraw with hx | hx
      · exact Or.inl ((isSubstrB_iff _ _).2 hx)
      · exact Or.inr ((isSubstrB_iff _ _).2 hx)
  · rw [filterAndSort]
    exact List.sorted_mergeSort nameLe_trans nameLe_total
      (cbi.filterMap (rowFilter sbc (lowerData qRaw) country category))

/-- Witness for C6: the spec scenario catalog filtered by country "UK"
contains the BBC channel paired with its single stream. -/
theorem claim_C6_filter_and_sort_witness :
    ((⟨"bbc", "BBC News", some "UK", ["news"]⟩ : Channel),
      ([⟨"bbc", "http://x/1", none, none, none, none⟩] : List Stream)) ∈
      filterAndSort
        (buildChannels [⟨"bbc", some "BBC News", some "UK", some ["news"]⟩])
        (buildStreams ⟨[⟨"bbc", some "BBC News", some "UK", some ["news"]⟩],
                       [⟨some "bbc", some "http://x/1", none, none, none, none⟩]⟩)
        "" "UK" "" :=
  ((claim_C6_filter_and_sort
      (buildChannels [⟨"bbc", some "BBC News", some "UK", some ["news"]⟩])
      (buildStreams ⟨[⟨"bbc", some "BBC News", some "UK", some ["news"]⟩],
                     [⟨some "bbc", some "http://x/1", none, none, none, none⟩]⟩)
      "" "UK" "").1
    ⟨"bbc", "BBC News", some "UK", ["news"]⟩
    [⟨"bbc", "http://x/1", none, none, none, none⟩]).mpr
    ⟨⟨"bbc", by decide, by decide⟩,
     fun _ => by decide,
     fun h => absurd rfl h,
     fun h => absurd rfl h⟩

end TVApp
